import Mathlib

/-!
Shallow embedding of the goresilience repository (rafet/goresilience).

The repository sources available are the `timeout` package and the `chaos`
package, together with tests and examples.  The core `goresilience` package
(`Runner`, `Middleware`, `SanitizeRunner`, `RunnerChain`), the `bulkhead`
package and the `circuitbreaker` package are not among the source files, so
those parts are modelled from the spec; each such definition carries a doc
comment starting with `Modelled from the spec:`.

Conventions of the embedding:
* Go `error` results become `Option GoErr` (`none` = `nil`).
* `time.Duration` (Go `int64` nanoseconds) becomes `Int`; wall-clock
  instants become `Int` (timeout model) or `Nat` (circuit-breaker model).
* A call to a runner is described by a `Scenario`: when the context handed
  to `Run` becomes done, when the wrapped unit of work returns, and what it
  returns.  The `select` race of the timeout runner is resolved by strict
  comparison of those instants, with an explicit tie-break bit for the
  nondeterministic simultaneous case.
* Metric-recorder calls are collected as a list of events.
-/

namespace Goresilience

/-- Errors of the error domain (package `errors` plus unit-of-work errors).
`unitErr n` stands for an arbitrary error returned by the wrapped unit of
work, distinguishable by identity from every sentinel error. -/
inductive GoErr where
  | errTimeout
  | errCircuitOpen
  | errBulkheadFull
  | errFailureInjected
  | errContextCanceled
  | unitErr (n : Nat)
deriving DecidableEq, Repr

/-- Events sent to the metrics recorder from the modelled runners. -/
inductive MetricEvent where
  | incTimeout
deriving DecidableEq, Repr

namespace Timeout

/-- `timeout.Config` from the source: `Timeout time.Duration; Cancel bool`. -/
structure Config where
  Timeout : Int
  Cancel : Bool
deriving DecidableEq, Repr

/-- `defaultTimeout = 1 * time.Second` in nanoseconds. -/
def defaultTimeout : Int := 1000000000

/-- `func (c *Config) defaults()`: `if c.Timeout <= 0 { c.Timeout = defaultTimeout }`. -/
def Config.defaults (c : Config) : Config :=
  if c.Timeout ≤ 0 then { c with Timeout := defaultTimeout } else c

/-- One call through a runner, as seen by the shallow embedding.  Time `0` is
the instant `Run` is entered.  `ctxDoneAt` is the instant the context passed
to `Run` becomes done (`none` = never: the caller neither cancels nor has a
deadline).  `unitAt`/`unitRes` describe when the wrapped unit of work
returns and with what.  `tie` resolves a `select` in which both channels
become ready at the same instant (`true` picks the result channel). -/
structure Scenario where
  ctxDoneAt : Option Int
  unitAt : Int
  unitRes : Option GoErr
  tie : Bool
deriving DecidableEq, Repr

/-- Outcome of one modelled `Run` call: the returned error, the instant the
call returns to its caller, and the metric events recorded by the call. -/
structure RunOut where
  err : Option GoErr
  retAt : Int
  events : List MetricEvent
deriving DecidableEq, Repr

/-- A runner of the embedding: a behaviour on every call scenario. -/
def MRunner : Type := Scenario → RunOut

/-- Modelled from the spec: `goresilience.SanitizeRunner` belongs to the core
package, which is not among the source files.  Per §4.1 of the spec, an
absent "next" is substituted by a trivial pass-through runner that directly
invokes the unit of work and returns its result unmodified (so it returns
exactly when the unit returns, with the unit's result, recording nothing). -/
def SanitizeRunner : Option MRunner → MRunner
  | some r => r
  | none => fun s => { err := s.unitRes, retAt := s.unitAt, events := [] }

/-- Instant at which the child context of `context.WithTimeout(ctx, d)`
becomes done: the deadline `0 + d`, or the parent's done instant, whichever
is first. -/
def childDoneAt (d : Int) (parentDoneAt : Option Int) : Int :=
  match parentDoneAt with
  | none => d
  | some t => min t d

/-- `timeout.NewMiddleware` from the source.  `cfg.defaults()` is applied,
`next` is sanitized, a child context with deadline `cfg.Timeout` is derived
from the caller's context, the wrapped call runs in its own goroutine
writing to a buffered channel `errc`, and a `select` races `errc` against
`ctx.Done()`.  If the result channel wins, the inner result is returned
unchanged; if the done channel wins, `IncTimeout` is recorded and
`errors.ErrTimeout` is returned immediately.  The abandoned goroutine's
late write lands in the buffered channel and is discarded; any metric
events it would record happen after the call returned and are not part of
the call's own event list. -/
def NewMiddleware (cfg : Config) : Option MRunner → MRunner := fun next =>
  let cfg := cfg.defaults
  let nxt := SanitizeRunner next
  fun s =>
    let doneAt := childDoneAt cfg.Timeout s.ctxDoneAt
    let inner := nxt { s with ctxDoneAt := some doneAt }
    if inner.retAt < doneAt ∨ (inner.retAt = doneAt ∧ s.tie) then
      { err := inner.err, retAt := inner.retAt, events := inner.events }
    else
      { err := some GoErr.errTimeout, retAt := doneAt, events := [MetricEvent.incTimeout] }

/-- `timeout.New` from the source: `return NewMiddleware(cfg)(nil)`. -/
def New (cfg : Config) : MRunner := NewMiddleware cfg none

end Timeout

namespace Bulkhead

/-- Modelled from the spec: the `bulkhead` package is not among the source
files (only its test `TestBulkheadTimeout` is).  §4.3: `Workers` (0 ⇒
unbounded — all calls run immediately), `MaxWaitTime` (0 ⇒ wait indefinitely
for a slot). -/
structure Config where
  Workers : Nat
  MaxWaitTime : Nat
deriving DecidableEq, Repr

/-- Outcome of one bulkhead call: the returned error, whether the call was
admitted into a slot, and whether the unit of work was invoked. -/
structure BulkOut where
  err : Option GoErr
  admitted : Bool
  invoked : Bool
deriving DecidableEq, Repr

/-- Modelled from the spec: `bulkhead.Run` (§4.3).  `slotAfter` is the wait
this call would need before a slot frees for it under the admission
mechanism (0 when a slot is free at once; for a finite batch a slot always
eventually frees, since every admitted call releases its slot on
completion).  With `Workers = 0` admission is unbounded and immediate; with
`MaxWaitTime = 0` the call waits indefinitely and is eventually admitted;
otherwise the call is admitted iff the slot frees within `MaxWaitTime`, and
a call not admitted in time returns the dedicated rejection error without
the unit of work ever being invoked.  An admitted call runs the unit inside
the slot and returns its result unchanged. -/
def run (cfg : Config) (slotAfter : Nat) (unit : Option GoErr) : BulkOut :=
  if cfg.Workers = 0 then { err := unit, admitted := true, invoked := true }
  else if cfg.MaxWaitTime = 0 then { err := unit, admitted := true, invoked := true }
  else if slotAfter ≤ cfg.MaxWaitTime then { err := unit, admitted := true, invoked := true }
  else { err := some GoErr.errBulkheadFull, admitted := false, invoked := false }

/-- Modelled from the spec: a batch of submitted calls, each described by
its needed slot wait and its unit's result, resolved by the bulkhead. -/
def batch (cfg : Config) (calls : List (Nat × Option GoErr)) : List BulkOut :=
  calls.map fun c => run cfg c.1 c.2

/-- Number of admitted-and-ran calls of a batch. -/
def admittedCount (outs : List BulkOut) : Nat :=
  outs.countP fun o => o.admitted

/-- Number of rejected calls of a batch. -/
def rejectedCount (outs : List BulkOut) : Nat :=
  outs.countP fun o => !o.admitted

end Bulkhead

namespace CircuitBreaker

/-- Modelled from the spec: the `circuitbreaker` package is not among the
source files (only an example caller is).  §4.4 configuration surface. -/
structure Config where
  ErrorPercentThresholdToOpen : Nat
  MinimumRequestToOpen : Nat
  SuccessfulRequiredOnHalfOpen : Nat
  WaitDurationInOpenState : Nat
  MetricsSlidingWindowBucketQuantity : Nat
  MetricsBucketDuration : Nat
deriving DecidableEq, Repr

/-- One time bucket of the sliding window: (total, failed) counters. -/
structure Bucket where
  total : Nat
  failed : Nat
deriving DecidableEq, Repr

/-- The three-state machine of §4.4. -/
inductive StateKind where
  | closed
  | opened
  | halfOpen
deriving DecidableEq, Repr

/-- Modelled from the spec: the circuit-breaker state (§3).  `buckets` is
the ring of time buckets; `lastAbs` is the absolute bucket number
(`wallClock / bucketDuration`) observed by the previous call, used for lazy
rotation; `halfOpenSuccesses` is the half-open consecutive-success counter;
`openedAt` is the timestamp of the last transition into Open. -/
structure State where
  kind : StateKind
  buckets : List Bucket
  lastAbs : Nat
  halfOpenSuccesses : Nat
  openedAt : Nat
deriving DecidableEq, Repr

/-- Modelled from the spec: lazy bucket rotation (§4.4, §9).  Advancing from
absolute bucket number `lastAbs` to `nowAbs` clears every slot skipped in
between; a gap of at least the ring size clears the whole ring. -/
def rotate (bs : List Bucket) (lastAbs nowAbs : Nat) : List Bucket :=
  let q := bs.length
  let gap := nowAbs - lastAbs
  if gap = 0 then bs
  else if q ≤ gap then List.replicate q { total := 0, failed := 0 }
  else (List.range gap).foldl
    (fun acc i => acc.set ((lastAbs + 1 + i) % q) { total := 0, failed := 0 }) bs

/-- Aggregate total over all currently live buckets of the window. -/
def aggTotal (bs : List Bucket) : Nat :=
  (bs.map Bucket.total).sum

/-- Aggregate failed over all currently live buckets of the window. -/
def aggFailed (bs : List Bucket) : Nat :=
  (bs.map Bucket.failed).sum

/-- Record one call outcome in the active bucket of the window. -/
def record (bs : List Bucket) (active : Nat) (failed : Bool) : List Bucket :=
  match bs.get? active with
  | none => bs
  | some b =>
      bs.set active { total := b.total + 1, failed := b.failed + (if failed then 1 else 0) }

/-- Modelled from the spec: the window visible to the open-threshold
decision of a Closed-state call at instant `now`: the ring rotated to `now`
with the current call's outcome recorded in the active bucket. -/
def decisionWindow (cfg : Config) (st : State) (now : Nat) (failed : Bool) : List Bucket :=
  let nowAbs := now / cfg.MetricsBucketDuration
  let active := nowAbs % cfg.MetricsSlidingWindowBucketQuantity
  record (rotate st.buckets st.lastAbs nowAbs) active failed

/-- Modelled from the spec: the Closed→Open condition (§4.4): aggregate
window total ≥ `MinimumRequestToOpen` and `(failed/total)*100 ≥
ErrorPercentThresholdToOpen`, the rate inequality cleared of division over
the nonnegative rationals. -/
def shouldOpen (cfg : Config) (bs : List Bucket) : Bool :=
  cfg.MinimumRequestToOpen ≤ aggTotal bs &&
    cfg.ErrorPercentThresholdToOpen * aggTotal bs ≤ aggFailed bs * 100

/-- Outcome of one circuit-breaker call: the returned error, the successor
state, and whether the wrapped runner was invoked. -/
structure CBOut where
  err : Option GoErr
  st : State
  invoked : Bool
deriving DecidableEq, Repr

/-- Modelled from the spec: one probe call in the HalfOpen state (§4.4).
A success increments the consecutive-success counter and closes the circuit
(resetting counters and window) once `SuccessfulRequiredOnHalfOpen` is
reached; the first failing probe reopens the circuit, restarting the
`WaitDurationInOpenState` clock and resetting the counter. -/
def probe (cfg : Config) (st : State) (now : Nat) (unitRes : Option GoErr) : CBOut :=
  match unitRes with
  | none =>
      let succ := st.halfOpenSuccesses + 1
      if cfg.SuccessfulRequiredOnHalfOpen ≤ succ then
        { err := none
          st := { kind := StateKind.closed
                  buckets := List.replicate cfg.MetricsSlidingWindowBucketQuantity
                    { total := 0, failed := 0 }
                  lastAbs := now / cfg.MetricsBucketDuration
                  halfOpenSuccesses := 0
                  openedAt := st.openedAt }
          invoked := true }
      else
        { err := none
          st := { st with kind := StateKind.halfOpen, halfOpenSuccesses := succ }
          invoked := true }
  | some e =>
      { err := some e
        st := { st with kind := StateKind.opened, halfOpenSuccesses := 0, openedAt := now }
        invoked := true }

/-- Modelled from the spec: one call through the circuit breaker (§4.4).
No background timer exists: every transition is evaluated here, on an
incoming call.  Closed: the call passes through, its outcome is recorded in
the active bucket, and the Closed→Open condition is evaluated over the
aggregate of the currently live buckets.  Open: if `WaitDurationInOpenState`
has not yet elapsed since `openedAt`, the call is rejected immediately with
the circuit-open error and the wrapped runner is not invoked; otherwise the
circuit moves to HalfOpen and this call is let through as a probe.
HalfOpen: the call is a probe. -/
def cbRun (cfg : Config) (st : State) (now : Nat) (unitRes : Option GoErr) : CBOut :=
  let nowAbs := now / cfg.MetricsBucketDuration
  match st.kind with
  | StateKind.closed =>
      let bs := decisionWindow cfg st now unitRes.isSome
      if shouldOpen cfg bs then
        { err := unitRes
          st := { kind := StateKind.opened, buckets := bs, lastAbs := nowAbs
                  halfOpenSuccesses := 0, openedAt := now }
          invoked := true }
      else
        { err := unitRes
          st := { st with buckets := bs, lastAbs := nowAbs }
          invoked := true }
  | StateKind.opened =>
      if st.openedAt + cfg.WaitDurationInOpenState ≤ now then
        probe cfg { st with halfOpenSuccesses := 0 } now unitRes
      else
        { err := some GoErr.errCircuitOpen
          st := { st with buckets := rotate st.buckets st.lastAbs nowAbs, lastAbs := nowAbs }
          invoked := false }
  | StateKind.halfOpen =>
      probe cfg st now unitRes

end CircuitBreaker

namespace Chaos

/-- `chaos.Injector` from the source: a latency and an error percent. -/
structure Injector where
  latency : Int
  errorPercent : Int
deriving DecidableEq, Repr

/-- `Injector.SetErrorPercent` from the source: `if percent > 100 || percent
< 0` an error is returned before anything is stored; otherwise the percent
is stored and nil is returned.  The boolean of the pair is `true` exactly
when an error is returned; the first component is the injector afterwards. -/
def SetErrorPercent (i : Injector) (percent : Int) : Injector × Bool :=
  if percent > 100 ∨ percent < 0 then (i, true)
  else ({ i with errorPercent := percent }, false)

/-- `failureInjector` counters from the source: runs so far and errors so
far, both incremented in a deferred block after the result is known. -/
structure FIState where
  total : Nat
  errs : Nat
deriving DecidableEq, Repr

/-- The Go conversion `int(NaN)` is implementation-dependent ("if the result
value cannot be represented by the type of the conversion, the conversion
succeeds but the result value is implementation-dependent").  On amd64 the
CVTTSD2SI instruction yields the minimum int64. -/
def amd64IntOfNaN : Int := -(2 ^ 63)

/-- `failureInjector.Run` from the source.  The latency attack only sleeps
and never changes the result, so it is omitted.  `currentErrPerc :=
int((float64(errs) / float64(total)) * 100)`: for `total = 0` this is a
zero-by-zero division producing `NaN`, whose int conversion is the
implementation-dependent parameter `intOfNaN`; for `total > 0` it is the
truncated nonnegative percentage, embedded as integer division (the claims
settled here depend only on its sign, on which the float and integer
computations agree).  If `currentErrPerc < errorPercent` the injected error
is returned without running the wrapped runner; otherwise the wrapped
runner's result `runnerRes` is returned.  The deferred block then
increments `total`, and `errs` when the returned error is non-nil. -/
def failureInjectorRun (errorPercent : Int) (intOfNaN : Int) (st : FIState)
    (runnerRes : Option GoErr) : Option GoErr × FIState :=
  let currentErrPerc : Int :=
    if st.total = 0 then intOfNaN else ((st.errs : Int) * 100) / (st.total : Int)
  let res := if currentErrPerc < errorPercent then some GoErr.errFailureInjected else runnerRes
  (res, { total := st.total + 1, errs := st.errs + (if res.isSome then 1 else 0) })

end Chaos

end Goresilience

namespace Goresilience

/-- Unfolding of `timeout.New` on one scenario: the `select` race between
the wrapped call's completion and the child context's deadline. -/
theorem Timeout.New_apply (cfg : Timeout.Config) (s : Timeout.Scenario) :
    Timeout.New cfg s =
      (if s.unitAt < Timeout.childDoneAt cfg.defaults.Timeout s.ctxDoneAt ∨
          (s.unitAt = Timeout.childDoneAt cfg.defaults.Timeout s.ctxDoneAt ∧ s.tie) then
        { err := s.unitRes, retAt := s.unitAt, events := [] }
      else
        { err := some GoErr.errTimeout
          retAt := Timeout.childDoneAt cfg.defaults.Timeout s.ctxDoneAt
          events := [MetricEvent.incTimeout] }) := rfl

/-- C8: the Timeout Runner's configuration defaulting maps every
`Timeout ≤ 0` to 1 second, leaves every positive `Timeout` unchanged,
leaves `Cancel` unchanged, and is idempotent. -/
theorem timeout_defaults_spec (c : Timeout.Config) :
    (c.defaults.Timeout = if c.Timeout ≤ 0 then Timeout.defaultTimeout else c.Timeout) ∧
    c.defaults.Cancel = c.Cancel ∧
    c.defaults.defaults = c.defaults := by
  unfold Timeout.Config.defaults
  by_cases h : c.Timeout ≤ 0 <;>
    simp [h, Timeout.defaultTimeout]

/-- C9: `Injector.SetErrorPercent` errors exactly when the percent is above
100 or below 0, leaving the stored injector unchanged in that case; for
every percent in `[0, 100]` it stores the value and returns nil. -/
theorem chaos_setErrorPercent_spec (i : Chaos.Injector) (p : Int) :
    ((Chaos.SetErrorPercent i p).2 = true ↔ 100 < p ∨ p < 0) ∧
    (100 < p ∨ p < 0 → (Chaos.SetErrorPercent i p).1 = i) ∧
    (0 ≤ p → p ≤ 100 →
      (Chaos.SetErrorPercent i p).1.errorPercent = p ∧
      (Chaos.SetErrorPercent i p).1.latency = i.latency ∧
      (Chaos.SetErrorPercent i p).2 = false) := by
  by_cases h : 100 < p ∨ p < 0
  · have hif : Chaos.SetErrorPercent i p = (i, true) := by
      unfold Chaos.SetErrorPercent
      rw [if_pos h]
    rw [hif]
    refine ⟨by simp [h], fun _ => rfl, fun h1 h2 => ?_⟩
    exfalso
    omega
  · have h1 : ¬ 100 < p := fun hc => h (Or.inl hc)
    have h2 : ¬ p < 0 := fun hc => h (Or.inr hc)
    have hif : Chaos.SetErrorPercent i p = ({ i with errorPercent := p }, false) := by
      unfold Chaos.SetErrorPercent
      rw [if_neg h]
    rw [hif]
    exact ⟨by simp [h1, h2], fun hc => absurd hc h, fun _ _ => ⟨rfl, rfl, rfl⟩⟩

theorem chaos_setErrorPercent_spec_witness :
    (Chaos.SetErrorPercent ⟨0, 5⟩ 101).1 = ⟨0, 5⟩ ∧
    (Chaos.SetErrorPercent ⟨0, 5⟩ 40).1.errorPercent = 40 ∧
    (Chaos.SetErrorPercent ⟨0, 5⟩ 40).2 = false := by
  refine ⟨(chaos_setErrorPercent_spec ⟨0, 5⟩ 101).2.1 (by decide),
    ((chaos_setErrorPercent_spec ⟨0, 5⟩ 40).2.2 (by decide) (by decide)).1,
    ((chaos_setErrorPercent_spec ⟨0, 5⟩ 40).2.2 (by decide) (by decide)).2.2⟩

/-- C10: evaluation of `failureInjector.Run` at the failing input.  With
`errorPercent = 0`, on the very first call (`total = 0`, `errs = 0`) the
observed percentage is `int(NaN)`; on amd64 that conversion yields the
minimum int64, which is `< 0`, so the injected-error branch IS taken and
`Run` returns `ErrFailureInjected` — contradicting the claim that the
branch is unreachable for every call. -/
theorem chaos_firstCall_injects_on_amd64 :
    Chaos.failureInjectorRun 0 Chaos.amd64IntOfNaN ⟨0, 0⟩ none
      = (some GoErr.errFailureInjected, ⟨1, 1⟩) := by decide

-- After the first call (`total > 0`) the observed percentage is
-- nonnegative, so with `errorPercent = 0` the injected-error branch is
-- indeed unreachable, whatever the int conversion of NaN is.
theorem chaos_fi_no_injection_after_first (n : Int) (st : Chaos.FIState)
    (r : Option GoErr) (h : st.total ≠ 0) :
    (Chaos.failureInjectorRun 0 n st r).1 = r := by
  have hnn : (0 : Int) ≤ (st.errs : Int) * 100 / (st.total : Int) := by positivity
  show (if (if st.total = 0 then n else (st.errs : Int) * 100 / (st.total : Int)) < 0 then
      some GoErr.errFailureInjected else r) = r
  rw [if_neg h, if_neg hnn.not_lt]

theorem chaos_fi_no_injection_after_first_witness :
    (Chaos.failureInjectorRun 0 (-(2 ^ 63)) ⟨3, 1⟩ none).1 = none := by
  exact chaos_fi_no_injection_after_first (-(2 ^ 63)) ⟨3, 1⟩ none (by decide)

/-- C1: through the Timeout Runner (the caller's context itself never
becoming done), a unit completing strictly before the configured Timeout
has its own error/nil returned unchanged, at the instant it completes,
recording nothing; once the Timeout elapses first, Run immediately (at the
deadline instant) returns ErrTimeout and records a timeout event,
irrespective of the abandoned unit's result, which is universally
quantified and discarded. -/
theorem timeout_run_race (cfg : Timeout.Config) (s : Timeout.Scenario)
    (hc : s.ctxDoneAt = none) :
    (s.unitAt < cfg.defaults.Timeout →
      Timeout.New cfg s = { err := s.unitRes, retAt := s.unitAt, events := [] }) ∧
    (cfg.defaults.Timeout < s.unitAt →
      Timeout.New cfg s =
        { err := some GoErr.errTimeout, retAt := cfg.defaults.Timeout
          events := [MetricEvent.incTimeout] }) := by
  have hdone : Timeout.childDoneAt cfg.defaults.Timeout s.ctxDoneAt = cfg.defaults.Timeout := by
    rw [hc]
    rfl
  rw [Timeout.New_apply, hdone]
  constructor
  · intro h
    rw [if_pos (Or.inl h)]
  · intro h
    rw [if_neg]
    rintro (h' | ⟨h', -⟩) <;> omega

theorem timeout_run_race_witness :
    Timeout.New ⟨5, false⟩ ⟨none, 3, some (GoErr.unitErr 0), true⟩
        = { err := some (GoErr.unitErr 0), retAt := 3, events := [] } ∧
    Timeout.New ⟨5, false⟩ ⟨none, 9, none, false⟩
        = { err := some GoErr.errTimeout, retAt := 5, events := [MetricEvent.incTimeout] } := by
  refine ⟨(timeout_run_race ⟨5, false⟩ ⟨none, 3, some (GoErr.unitErr 0), true⟩ rfl).1 (by decide),
    (timeout_run_race ⟨5, false⟩ ⟨none, 9, none, false⟩ rfl).2 (by decide)⟩

/-- C2 counterexample: Timeout 10, the caller's context done (caller
cancellation) at instant 1, the wrapped unit of work due to finish at
instant 5 with nil.  The `select` takes the done branch and `Run` returns
the decorator-synthesized ErrTimeout, not the caller-initiated cancellation
surfaced unmodified (the returned error is neither nil nor a cancellation
error). -/
theorem timeout_callerCancel_counterexample :
    (Timeout.New ⟨10, false⟩ ⟨some 1, 5, none, false⟩).err = some GoErr.errTimeout ∧
    (Timeout.New ⟨10, false⟩ ⟨some 1, 5, none, false⟩).err ≠ none ∧
    (Timeout.New ⟨10, false⟩ ⟨some 1, 5, none, false⟩).err ≠ some GoErr.errContextCanceled := by
  decide

/-- C2 amended: the Timeout Runner's deadline context is derived from the
caller's context, so the child context is done no later than the caller's
cancellation and no later than the configured Timeout (cancellation
propagates downward and is never suppressed), and Run returns no later than
the child context is done; but when the caller's context becomes done
strictly before the wrapped call completes and no later than the Timeout,
Run returns at that very instant with the decorator's own ErrTimeout, not
with the caller's cancellation error. -/
theorem timeout_callerCancel_amended (cfg : Timeout.Config) (s : Timeout.Scenario) (t : Int)
    (hc : s.ctxDoneAt = some t) :
    Timeout.childDoneAt cfg.defaults.Timeout s.ctxDoneAt ≤ t ∧
    Timeout.childDoneAt cfg.defaults.Timeout s.ctxDoneAt ≤ cfg.defaults.Timeout ∧
    (Timeout.New cfg s).retAt ≤ Timeout.childDoneAt cfg.defaults.Timeout s.ctxDoneAt ∧
    (t < s.unitAt → t ≤ cfg.defaults.Timeout →
      (Timeout.New cfg s).err = some GoErr.errTimeout ∧ (Timeout.New cfg s).retAt = t) := by
  have hdone : Timeout.childDoneAt cfg.defaults.Timeout s.ctxDoneAt = min t cfg.defaults.Timeout := by
    rw [hc]
    rfl
  rw [Timeout.New_apply, hdone]
  refine ⟨min_le_left t _, min_le_right t _, ?_, ?_⟩
  · split
    · rename_i hlt
      rcases hlt with hlt | ⟨heq, -⟩ <;> simp <;> omega
    · simp
  · intro h1 h2
    have hmin : min t cfg.defaults.Timeout = t := min_eq_left h2
    rw [hmin, if_neg]
    · exact ⟨rfl, rfl⟩
    · rintro (h' | ⟨h', -⟩) <;> omega

theorem timeout_callerCancel_amended_witness :
    Timeout.childDoneAt (Timeout.Config.defaults ⟨10, false⟩).Timeout (some 1) ≤ 1 ∧
    Timeout.childDoneAt (Timeout.Config.defaults ⟨10, false⟩).Timeout (some 1) ≤ 10 ∧
    (Timeout.New ⟨10, false⟩ ⟨some 1, 5, none, false⟩).retAt
        ≤ Timeout.childDoneAt (Timeout.Config.defaults ⟨10, false⟩).Timeout (some 1) ∧
    ((Timeout.New ⟨10, false⟩ ⟨some 1, 5, none, false⟩).err = some GoErr.errTimeout ∧
      (Timeout.New ⟨10, false⟩ ⟨some 1, 5, none, false⟩).retAt = 1) := by
  have h := timeout_callerCancel_amended ⟨10, false⟩ ⟨some 1, 5, none, false⟩ 1 rfl
  exact ⟨h.1, h.2.1, h.2.2.1, h.2.2.2 (by decide) (by decide)⟩

/-- C7: `timeout.New cfg` is exactly `timeout.NewMiddleware cfg` applied to
an absent next runner; the sanitation of an absent next is the trivial
pass-through runner that directly invokes the unit of work and returns its
result unmodified at the instant the unit finishes; and under `New`, with
the caller's context never done, a unit finishing strictly before the
configured Timeout has its error/nil returned unchanged. -/
theorem timeout_new_passthrough (cfg : Timeout.Config) (s : Timeout.Scenario)
    (hc : s.ctxDoneAt = none) (h : s.unitAt < cfg.defaults.Timeout) :
    Timeout.New cfg = Timeout.NewMiddleware cfg none ∧
    Timeout.SanitizeRunner none s = { err := s.unitRes, retAt := s.unitAt, events := [] } ∧
    (Timeout.New cfg s).err = s.unitRes := by
  refine ⟨rfl, rfl, ?_⟩
  have hdone : Timeout.childDoneAt cfg.defaults.Timeout s.ctxDoneAt = cfg.defaults.Timeout := by
    rw [hc]
    rfl
  rw [Timeout.New_apply, hdone, if_pos (Or.inl h)]

-- Every single bulkhead call is either admitted (running the unit inside
-- the slot and returning its result unchanged) or rejected with the
-- dedicated error, the unit never invoked.
theorem Bulkhead.run_cases (cfg : Bulkhead.Config) (a : Nat) (u : Option GoErr) :
    ((Bulkhead.run cfg a u).admitted = true ∧ (Bulkhead.run cfg a u).invoked = true ∧
      (Bulkhead.run cfg a u).err = u) ∨
    ((Bulkhead.run cfg a u).admitted = false ∧ (Bulkhead.run cfg a u).invoked = false ∧
      (Bulkhead.run cfg a u).err = some GoErr.errBulkheadFull) := by
  unfold Bulkhead.run
  by_cases h1 : cfg.Workers = 0
  · simp [h1]
  · by_cases h2 : cfg.MaxWaitTime = 0
    · simp [h1, h2]
    · by_cases h3 : a ≤ cfg.MaxWaitTime
      · simp [h1, h2, h3]
      · simp [h1, h2, h3]

-- Counting the two complementary outcomes of a batch partitions it.
theorem Bulkhead.count_partition (l : List Bulkhead.BulkOut) :
    Bulkhead.admittedCount l + Bulkhead.rejectedCount l = l.length := by
  unfold Bulkhead.admittedCount Bulkhead.rejectedCount
  induction l with
  | nil => rfl
  | cons a l ih =>
    by_cases h : a.admitted <;>
      simp [List.countP_cons, h, ← ih] <;> omega

/-- C5: every set of calls submitted to a Bulkhead Runner is partitioned:
each call resolves to exactly one of admitted-and-ran (the unit invoked,
its result returned unchanged) or rejected (the dedicated rejection error,
the unit never invoked), and the admitted count plus the rejected count
equals the number of calls submitted. -/
theorem bulkhead_partition (cfg : Bulkhead.Config) (calls : List (Nat × Option GoErr)) :
    Bulkhead.admittedCount (Bulkhead.batch cfg calls)
        + Bulkhead.rejectedCount (Bulkhead.batch cfg calls) = calls.length ∧
    ∀ o ∈ Bulkhead.batch cfg calls,
      (o.admitted = true ∧ o.invoked = true) ∨
      (o.admitted = false ∧ o.invoked = false ∧ o.err = some GoErr.errBulkheadFull) := by
  constructor
  · rw [Bulkhead.count_partition]
    unfold Bulkhead.batch
    exact List.length_map _ _
  · intro o ho
    unfold Bulkhead.batch at ho
    rw [List.mem_map] at ho
    obtain ⟨c, -, rfl⟩ := ho
    rcases Bulkhead.run_cases cfg c.1 c.2 with ⟨h1, h2, -⟩ | h
    · exact Or.inl ⟨h1, h2⟩
    · exact Or.inr h

theorem bulkhead_partition_witness :
    Bulkhead.admittedCount (Bulkhead.batch ⟨2, 5⟩ [(0, none), (10, some (GoErr.unitErr 1)), (3, none)])
        + Bulkhead.rejectedCount (Bulkhead.batch ⟨2, 5⟩ [(0, none), (10, some (GoErr.unitErr 1)), (3, none)])
        = 3 ∧
    (((Bulkhead.run ⟨2, 5⟩ 10 (some (GoErr.unitErr 1))).admitted = true ∧
      (Bulkhead.run ⟨2, 5⟩ 10 (some (GoErr.unitErr 1))).invoked = true) ∨
    ((Bulkhead.run ⟨2, 5⟩ 10 (some (GoErr.unitErr 1))).admitted = false ∧
      (Bulkhead.run ⟨2, 5⟩ 10 (some (GoErr.unitErr 1))).invoked = false ∧
      (Bulkhead.run ⟨2, 5⟩ 10 (some (GoErr.unitErr 1))).err = some GoErr.errBulkheadFull)) := by
  refine ⟨(bulkhead_partition ⟨2, 5⟩ [(0, none), (10, some (GoErr.unitErr 1)), (3, none)]).1,
    (bulkhead_partition ⟨2, 5⟩ [(0, none), (10, some (GoErr.unitErr 1)), (3, none)]).2
      (Bulkhead.run ⟨2, 5⟩ 10 (some (GoErr.unitErr 1))) (by decide)⟩

/-- C6: with `Workers = 0` admission is unbounded: every one of the
submitted calls, however many, is admitted immediately and returns the
unit's own result, with zero rejections. -/
theorem bulkhead_unbounded (cfg : Bulkhead.Config) (calls : List (Nat × Option GoErr))
    (hw : cfg.Workers = 0) :
    Bulkhead.batch cfg calls
        = calls.map (fun c => { err := c.2, admitted := true, invoked := true }) ∧
    Bulkhead.rejectedCount (Bulkhead.batch cfg calls) = 0 ∧
    Bulkhead.admittedCount (Bulkhead.batch cfg calls) = calls.length := by
  have hrun : ∀ a u, Bulkhead.run cfg a u = { err := u, admitted := true, invoked := true } := by
    intro a u
    unfold Bulkhead.run
    rw [if_pos hw]
  have hb : Bulkhead.batch cfg calls
      = calls.map (fun c => { err := c.2, admitted := true, invoked := true }) := by
    unfold Bulkhead.batch
    simp only [hrun]
  refine ⟨hb, ?_, ?_⟩
  · rw [hb]
    unfold Bulkhead.rejectedCount
    induction calls with
    | nil => rfl
    | cons c l ih => simp [List.countP_cons, ih]
  · have := Bulkhead.count_partition (Bulkhead.batch cfg calls)
    have hrej : Bulkhead.rejectedCount (Bulkhead.batch cfg calls) = 0 := by
      rw [hb]
      unfold Bulkhead.rejectedCount
      induction calls with
      | nil => rfl
      | cons c l ih => simp [List.countP_cons, ih]
    rw [hrej] at this
    simpa [Bulkhead.batch] using this

theorem bulkhead_unbounded_witness :
    Bulkhead.batch ⟨0, 7⟩ (List.replicate 100 (0, none))
        = (List.replicate 100 ((0 : Nat), (none : Option GoErr))).map
            (fun c => { err := c.2, admitted := true, invoked := true }) ∧
    Bulkhead.rejectedCount (Bulkhead.batch ⟨0, 7⟩ (List.replicate 100 (0, none))) = 0 ∧
    Bulkhead.admittedCount (Bulkhead.batch ⟨0, 7⟩ (List.replicate 100 (0, none))) = 100 := by
  exact bulkhead_unbounded ⟨0, 7⟩ (List.replicate 100 (0, none)) rfl

-- A probe call always invokes the wrapped runner.
theorem CircuitBreaker.probe_invoked (cfg : CircuitBreaker.Config) (st : CircuitBreaker.State)
    (now : Nat) (u : Option GoErr) :
    (CircuitBreaker.probe cfg st now u).invoked = true := by
  cases u with
  | none =>
    simp only [CircuitBreaker.probe]
    split <;> rfl
  | some e => rfl

-- The window of an empty ring slot-set sums to the single recorded call.
theorem CircuitBreaker.aggTotal_set_replicate (q i : Nat) (b : CircuitBreaker.Bucket)
    (h : i < q) :
    CircuitBreaker.aggTotal
        ((List.replicate q { total := 0, failed := 0 }).set i b) = b.total := by
  induction q generalizing i with
  | zero => exact absurd h (by omega)
  | succ q ih =>
    cases i with
    | zero =>
      simp [List.replicate_succ, CircuitBreaker.aggTotal, List.map_replicate,
        List.sum_replicate]
    | succ i =>
      have h' : i < q := by omega
      have hih := ih i h'
      simp [List.replicate_succ, CircuitBreaker.aggTotal] at hih ⊢
      exact hih

-- Recording one outcome into a fully cleared ring yields aggregate total 1.
theorem CircuitBreaker.aggTotal_record_replicate (q i : Nat) (f : Bool) (h : i < q) :
    CircuitBreaker.aggTotal
        (CircuitBreaker.record (List.replicate q { total := 0, failed := 0 }) i f) = 1 := by
  unfold CircuitBreaker.record
  rw [List.get?_eq_getElem?, List.getElem?_replicate, if_pos h]
  exact CircuitBreaker.aggTotal_set_replicate q i _ h

-- A rotation whose elapsed gap covers the whole ring clears every bucket.
theorem CircuitBreaker.rotate_full (bs : List CircuitBreaker.Bucket) (la na : Nat)
    (h0 : 0 < bs.length) (h : bs.length ≤ na - la) :
    CircuitBreaker.rotate bs la na = List.replicate bs.length { total := 0, failed := 0 } := by
  simp only [CircuitBreaker.rotate]
  rw [if_neg (by omega), if_pos h]

/-- C3: while the circuit breaker is Open and `WaitDurationInOpenState` has
not yet elapsed since the transition into Open, every incoming call is
rejected immediately with the circuit-open error, the wrapped Runner is
never invoked and the state stays Open; there is no background timer — the
Open→HalfOpen check runs lazily on the next incoming call, which, once the
wait has elapsed, is let through as a probe (the wrapped Runner invoked). -/
theorem cb_open_rejects (cfg : CircuitBreaker.Config) (st : CircuitBreaker.State)
    (now : Nat) (u : Option GoErr) (hk : st.kind = CircuitBreaker.StateKind.opened) :
    (now < st.openedAt + cfg.WaitDurationInOpenState →
      (CircuitBreaker.cbRun cfg st now u).err = some GoErr.errCircuitOpen ∧
      (CircuitBreaker.cbRun cfg st now u).invoked = false ∧
      (CircuitBreaker.cbRun cfg st now u).st.kind = CircuitBreaker.StateKind.opened ∧
      (CircuitBreaker.cbRun cfg st now u).st.openedAt = st.openedAt) ∧
    (st.openedAt + cfg.WaitDurationInOpenState ≤ now →
      (CircuitBreaker.cbRun cfg st now u).invoked = true) := by
  have hred : CircuitBreaker.cbRun cfg st now u
      = (if st.openedAt + cfg.WaitDurationInOpenState ≤ now then
          CircuitBreaker.probe cfg { st with halfOpenSuccesses := 0 } now u
        else
          { err := some GoErr.errCircuitOpen
            st := { st with
                      buckets := CircuitBreaker.rotate st.buckets st.lastAbs
                        (now / cfg.MetricsBucketDuration)
                      lastAbs := now / cfg.MetricsBucketDuration }
            invoked := false }) := by
    unfold CircuitBreaker.cbRun
    rw [hk]
  constructor
  · intro h
    rw [hred, if_neg (by omega)]
    exact ⟨rfl, rfl, hk, rfl⟩
  · intro h
    rw [hred, if_pos h]
    exact CircuitBreaker.probe_invoked cfg _ now u

theorem cb_open_rejects_witness :
    (CircuitBreaker.cbRun ⟨50, 10, 1, 100, 4, 10⟩
        ⟨CircuitBreaker.StateKind.opened, List.replicate 4 ⟨0, 0⟩, 0, 0, 0⟩ 5 none).err
      = some GoErr.errCircuitOpen ∧
    (CircuitBreaker.cbRun ⟨50, 10, 1, 100, 4, 10⟩
        ⟨CircuitBreaker.StateKind.opened, List.replicate 4 ⟨0, 0⟩, 0, 0, 0⟩ 5 none).invoked
      = false ∧
    (CircuitBreaker.cbRun ⟨50, 10, 1, 100, 4, 10⟩
        ⟨CircuitBreaker.StateKind.opened, List.replicate 4 ⟨0, 0⟩, 0, 0, 0⟩ 5 none).st.kind
      = CircuitBreaker.StateKind.opened ∧
    (CircuitBreaker.cbRun ⟨50, 10, 1, 100, 4, 10⟩
        ⟨CircuitBreaker.StateKind.opened, List.replicate 4 ⟨0, 0⟩, 0, 0, 0⟩ 200 none).invoked
      = true := by
  have h1 := cb_open_rejects ⟨50, 10, 1, 100, 4, 10⟩
    ⟨CircuitBreaker.StateKind.opened, List.replicate 4 ⟨0, 0⟩, 0, 0, 0⟩ 5 none rfl
  have h2 := cb_open_rejects ⟨50, 10, 1, 100, 4, 10⟩
    ⟨CircuitBreaker.StateKind.opened, List.replicate 4 ⟨0, 0⟩, 0, 0, 0⟩ 200 none rfl
  exact ⟨(h1.1 (by decide)).1, (h1.1 (by decide)).2.1, (h1.1 (by decide)).2.2.1,
    h2.2 (by decide)⟩

/-- C4: a Closed-state call passes through (the wrapped runner invoked, its
error returned unchanged) and transitions Closed→Open exactly when, over
the decision window — the ring rotated to the call instant with the call's
outcome recorded, its aggregates summed across the currently live buckets —
the total reaches `MinimumRequestToOpen` and the failure rate reaches
`ErrorPercentThresholdToOpen` percent; once it opens, the immediately
following call (within the open-state wait) returns circuit-open without
invoking the wrapped Runner; and the window is decaying, never a lifetime
count: a call whose elapsed time covers the whole ring decides over an
aggregate counting only itself, whatever history the buckets held. -/
theorem cb_closed_to_open (cfg : CircuitBreaker.Config) (st : CircuitBreaker.State)
    (now : Nat) (u : Option GoErr) (hk : st.kind = CircuitBreaker.StateKind.closed) :
    ((CircuitBreaker.cbRun cfg st now u).st.kind = CircuitBreaker.StateKind.opened ↔
      (cfg.MinimumRequestToOpen
          ≤ CircuitBreaker.aggTotal (CircuitBreaker.decisionWindow cfg st now u.isSome) ∧
        cfg.ErrorPercentThresholdToOpen
            * CircuitBreaker.aggTotal (CircuitBreaker.decisionWindow cfg st now u.isSome)
          ≤ CircuitBreaker.aggFailed (CircuitBreaker.decisionWindow cfg st now u.isSome)
            * 100)) ∧
    ((CircuitBreaker.cbRun cfg st now u).err = u ∧
      (CircuitBreaker.cbRun cfg st now u).invoked = true) ∧
    (∀ now2 u2, (CircuitBreaker.cbRun cfg st now u).st.kind = CircuitBreaker.StateKind.opened →
      now2 < now + cfg.WaitDurationInOpenState →
      (CircuitBreaker.cbRun cfg (CircuitBreaker.cbRun cfg st now u).st now2 u2).err
          = some GoErr.errCircuitOpen ∧
      (CircuitBreaker.cbRun cfg (CircuitBreaker.cbRun cfg st now u).st now2 u2).invoked
          = false) ∧
    (0 < cfg.MetricsSlidingWindowBucketQuantity →
      st.buckets.length = cfg.MetricsSlidingWindowBucketQuantity →
      cfg.MetricsSlidingWindowBucketQuantity ≤ now / cfg.MetricsBucketDuration - st.lastAbs →
      CircuitBreaker.aggTotal (CircuitBreaker.decisionWindow cfg st now u.isSome) = 1) := by
  have hred : CircuitBreaker.cbRun cfg st now u
      = (if CircuitBreaker.shouldOpen cfg (CircuitBreaker.decisionWindow cfg st now u.isSome) then
          { err := u
            st := { kind := CircuitBreaker.StateKind.opened
                    buckets := CircuitBreaker.decisionWindow cfg st now u.isSome
                    lastAbs := now / cfg.MetricsBucketDuration
                    halfOpenSuccesses := 0
                    openedAt := now }
            invoked := true }
        else
          { err := u
            st := { st with
                      buckets := CircuitBreaker.decisionWindow cfg st now u.isSome
                      lastAbs := now / cfg.MetricsBucketDuration }
            invoked := true }) := by
    unfold CircuitBreaker.cbRun
    rw [hk]
  refine ⟨?_, ?_, ?_, ?_⟩
  · by_cases hso : CircuitBreaker.shouldOpen cfg
        (CircuitBreaker.decisionWindow cfg st now u.isSome) = true
    · rw [hred, if_pos hso]
      simp only [CircuitBreaker.shouldOpen, Bool.and_eq_true, decide_eq_true_eq] at hso
      simpa using hso
    · rw [hred, if_neg hso]
      simp only [CircuitBreaker.shouldOpen, Bool.and_eq_true, decide_eq_true_eq] at hso
      constructor
      · intro habs
        rw [hk] at habs
        exact absurd habs (by decide)
      · intro hcond
        exact absurd hcond (by simpa using hso)
  · rw [hred]
    split <;> exact ⟨rfl, rfl⟩
  · intro now2 u2 hkind hlt
    by_cases hso : CircuitBreaker.shouldOpen cfg
        (CircuitBreaker.decisionWindow cfg st now u.isSome) = true
    · rw [hred, if_pos hso]
      have hred2 : CircuitBreaker.cbRun cfg
          { kind := CircuitBreaker.StateKind.opened
            buckets := CircuitBreaker.decisionWindow cfg st now u.isSome
            lastAbs := now / cfg.MetricsBucketDuration
            halfOpenSuccesses := 0
            openedAt := now } now2 u2
          = (if now + cfg.WaitDurationInOpenState ≤ now2 then
              CircuitBreaker.probe cfg
                { kind := CircuitBreaker.StateKind.opened
                  buckets := CircuitBreaker.decisionWindow cfg st now u.isSome
                  lastAbs := now / cfg.MetricsBucketDuration
                  halfOpenSuccesses := 0
                  openedAt := now } now2 u2
            else
              { err := some GoErr.errCircuitOpen
                st := { kind := CircuitBreaker.StateKind.opened
                        buckets := CircuitBreaker.rotate
                          (CircuitBreaker.decisionWindow cfg st now u.isSome)
                          (now / cfg.MetricsBucketDuration)
                          (now2 / cfg.MetricsBucketDuration)
                        lastAbs := now2 / cfg.MetricsBucketDuration
                        halfOpenSuccesses := 0
                        openedAt := now }
                invoked := false }) := rfl
      rw [hred2, if_neg (by omega)]
      exact ⟨rfl, rfl⟩
    · rw [hred, if_neg hso] at hkind
      have : st.kind = CircuitBreaker.StateKind.opened := hkind
      rw [hk] at this
      exact absurd this (by decide)
  · intro hq hlen hgap
    simp only [CircuitBreaker.decisionWindow]
    rw [CircuitBreaker.rotate_full st.buckets st.lastAbs (now / cfg.MetricsBucketDuration)
      (by omega) (by omega), hlen]
    exact CircuitBreaker.aggTotal_record_replicate _ _ _
      (Nat.mod_lt _ hq)

theorem cb_closed_to_open_witness :
    (CircuitBreaker.cbRun ⟨50, 2, 1, 100, 4, 10⟩
        ⟨CircuitBreaker.StateKind.closed, [⟨1, 1⟩, ⟨0, 0⟩, ⟨0, 0⟩, ⟨0, 0⟩], 0, 0, 0⟩ 5
        (some (GoErr.unitErr 0))).st.kind = CircuitBreaker.StateKind.opened ∧
    (CircuitBreaker.cbRun ⟨50, 2, 1, 100, 4, 10⟩
        (CircuitBreaker.cbRun ⟨50, 2, 1, 100, 4, 10⟩
          ⟨CircuitBreaker.StateKind.closed, [⟨1, 1⟩, ⟨0, 0⟩, ⟨0, 0⟩, ⟨0, 0⟩], 0, 0, 0⟩ 5
          (some (GoErr.unitErr 0))).st 20 none).err = some GoErr.errCircuitOpen ∧
    (CircuitBreaker.cbRun ⟨50, 2, 1, 100, 4, 10⟩
        (CircuitBreaker.cbRun ⟨50, 2, 1, 100, 4, 10⟩
          ⟨CircuitBreaker.StateKind.closed, [⟨1, 1⟩, ⟨0, 0⟩, ⟨0, 0⟩, ⟨0, 0⟩], 0, 0, 0⟩ 5
          (some (GoErr.unitErr 0))).st 20 none).invoked = false ∧
    CircuitBreaker.aggTotal (CircuitBreaker.decisionWindow ⟨50, 2, 1, 100, 4, 10⟩
        ⟨CircuitBreaker.StateKind.closed, [⟨1, 1⟩, ⟨0, 0⟩, ⟨0, 0⟩, ⟨0, 0⟩], 0, 0, 0⟩ 500
        (some (GoErr.unitErr 0)).isSome) = 1 := by
  have h1 := cb_closed_to_open ⟨50, 2, 1, 100, 4, 10⟩
    ⟨CircuitBreaker.StateKind.closed, [⟨1, 1⟩, ⟨0, 0⟩, ⟨0, 0⟩, ⟨0, 0⟩], 0, 0, 0⟩ 5
    (some (GoErr.unitErr 0)) rfl
  have h2 := cb_closed_to_open ⟨50, 2, 1, 100, 4, 10⟩
    ⟨CircuitBreaker.StateKind.closed, [⟨1, 1⟩, ⟨0, 0⟩, ⟨0, 0⟩, ⟨0, 0⟩], 0, 0, 0⟩ 500
    (some (GoErr.unitErr 0)) rfl
  have hopen := h1.1.mpr (by decide)
  exact ⟨hopen, (h1.2.2.1 20 none hopen (by decide)).1,
    (h1.2.2.1 20 none hopen (by decide)).2,
    h2.2.2.2 (by decide) (by decide) (by decide)⟩

theorem timeout_new_passthrough_witness :
    Timeout.New ⟨20, true⟩ = Timeout.NewMiddleware ⟨20, true⟩ none ∧
    Timeout.SanitizeRunner none ⟨none, 7, some (GoErr.unitErr 3), false⟩
        = { err := some (GoErr.unitErr 3), retAt := 7, events := [] } ∧
    (Timeout.New ⟨20, true⟩ ⟨none, 7, some (GoErr.unitErr 3), false⟩).err
        = some (GoErr.unitErr 3) := by
  exact timeout_new_passthrough ⟨20, true⟩ ⟨none, 7, some (GoErr.unitErr 3), false⟩ rfl (by decide)

end Goresilience
